import Mathlib

/-!
Verification development for the OOS Amazon inventory pipeline
(`oos_amazon.py`).  The pandas tables are shallowly embedded as lists of
rows of cells; floating point values are modelled as rationals with an
explicit `none` for NaN/NA; fallible pandas operations return `Except`.
-/

set_option maxHeartbeats 1000000

/-- Value held in one spreadsheet / dataframe cell.  `na` models pandas
NaN / pd.NA missing values. -/
inductive Cell where
  | num (q : ℚ)
  | str (s : String)
  | na
deriving DecidableEq, Repr

/-- Parse a list of decimal digit characters into a natural number,
returning `none` when empty or when a non-digit occurs. -/
def parseDigits (cs : List Char) : Option ℕ :=
  if cs = [] then none
  else if cs.all Char.isDigit then
    some (cs.foldl (fun a c => a * 10 + (c.toNat - 48)) 0)
  else none

/-- Strip leading and trailing whitespace from a character list
(Python's `str.strip()`). -/
def trimChars (cs : List Char) : List Char :=
  (((cs.dropWhile Char.isWhitespace).reverse.dropWhile Char.isWhitespace)).reverse

/-- Whitespace-stripped copy of a string. -/
def trimStr (s : String) : String := String.mk (trimChars s.data)

/-- Lower-cased copy of a string (Python's `str.lower()` over ASCII). -/
def lowerStr (s : String) : String := String.mk (s.data.map Char.toLower)

/-- Parse a plain decimal numeral (optional minus sign, optional single
decimal point) into a rational, the way Python's `float()` / pandas
`to_numeric` succeed on simple numeric text.  Returns `none` when the
text is not such a numeral (modelling a raised `ValueError` / NaN from
`errors="coerce"`). -/
def parseNum (s : String) : Option ℚ :=
  let body : List Char × Bool :=
    match trimChars s.data with
    | '-' :: rest => (rest, true)
    | cs => (cs, false)
  let sign : ℚ := if body.2 then -1 else 1
  match body.1.splitOn '.' with
  | [w] => (parseDigits w).map (fun n => sign * (n : ℚ))
  | [w, f] =>
      if w = [] ∧ f = [] then none
      else
        match (if w = [] then some 0 else parseDigits w),
              (if f = [] then some 0 else parseDigits f) with
        | some wn, some fn => some (sign * ((wn : ℚ) + (fn : ℚ) / (10 : ℚ) ^ f.length))
        | _, _ => none
  | _ => none

/-- Model of `pd.to_numeric(x, errors="coerce")` on a single cell:
numbers pass through, NaN/NA stays missing, strings are parsed with
unparseable text becoming missing. -/
def toNumeric (c : Cell) : Option ℚ :=
  match c with
  | .num q => some q
  | .na => none
  | .str s => parseNum s

/-- Model of `astype(str)` on one cell: strings are kept, numbers are
rendered to their decimal text, NaN renders as the string "nan". -/
def pyStr (c : Cell) : Cell :=
  match c with
  | .str s => .str s
  | .num q => .str (toString q)
  | .na => .str "nan"

/-- Dataframe model: a column-name header plus rows of cells (row `i`,
column `j` is `rows[i][j]`, named by `cols[j]`). -/
structure Table where
  cols : List String
  rows : List (List Cell)
deriving DecidableEq, Repr

/-- Value of the column named `name` in row `r` (with header `cols`);
missing columns and short rows read as NaN. -/
def rowGet (cols : List String) (r : List Cell) (name : String) : Cell :=
  match cols.findIdx? (fun c => c = name) with
  | some i => r.getD i .na
  | none => .na

/-- Model of `df[cs]` column projection (callers check presence first). -/
def projectCols (t : Table) (cs : List String) : Table :=
  { cols := cs, rows := t.rows.map (fun r => cs.map (fun c => rowGet t.cols r c)) }

/-- Round a rational to the nearest integer, ties to even — the rounding
used by numpy/pandas `.round`. -/
def halfEven (x : ℚ) : ℤ :=
  let f := ⌊x⌋
  let r := x - f
  if r < 1/2 then f
  else if 1/2 < r then f + 1
  else if f % 2 = 0 then f else f + 1

/-- Model of pandas `.round(2)`: round to two decimal places. -/
def round2 (x : ℚ) : ℚ := (halfEven (100 * x) : ℚ) / 100

/-- Model of the order-volume cleaning chain (lines 723-732 of
`oos_amazon.py`): `astype(str)`, strip non-breaking spaces and commas,
drop every character outside digits/dot/minus, coerce to numeric and
fill failures with 0. -/
def sanitizeOrder (s : String) : String :=
  String.mk (s.data.filter (fun c => c.isDigit ∨ c = '.' ∨ c = '-'))

/-- Cleaned numeric value of one order-volume cell; unparseable text and
NaN become 0 (the `fillna(0)`). -/
def cleanOrderVal (c : Cell) : ℚ :=
  match c with
  | .num q => q
  | .na => 0
  | .str s => (parseNum (sanitizeOrder s)).getD 0

/-- Value used for an order-volume column: the cleaned cell when the
column exists, else the constant 0 column the code inserts. -/
def getOrder (cols : List String) (r : List Cell) (name : String) : ℚ :=
  if name ∈ cols then cleanOrderVal (rowGet cols r name) else 0

/-- Model of `Total Orders = Total Order Items + Total Order Items - B2B`
(line 737). -/
def totalOrders (cols : List String) (r : List Cell) : ℚ :=
  getOrder cols r "Total Order Items" + getOrder cols r "Total Order Items - B2B"

/-- Model of `DRR = (Total Orders / no_of_days).round(2)` (line 742). -/
def drrOf (cols : List String) (r : List Cell) (days : ℕ) : ℚ :=
  round2 (totalOrders cols r / (days : ℚ))

/-- Model of the DOC computation (lines 744-749):
`DOC = (fulfillable / DRR.replace(0, pd.NA)).round(2)` then `fillna(0)`.
A zero DRR is replaced by NA, so the quotient, and hence DOC after the
fill, is 0; a missing fulfillable quantity likewise yields 0. -/
def docOf (fulfillable : Option ℚ) (d : ℚ) : ℚ :=
  if d = 0 then 0
  else
    match fulfillable with
    | none => 0
    | some q => round2 (q / d)

/-- Derived-metric columns appended to one row: `Total Orders`, `DRR`
and `DOC` as computed by lines 723-749. -/
def metricsRow (cols : List String) (days : ℕ) (r : List Cell) : List Cell :=
  r ++ [Cell.num (totalOrders cols r),
        Cell.num (drrOf cols r days),
        Cell.num (docOf (toNumeric (rowGet cols r "afn-fulfillable-quantity")) (drrOf cols r days))]

/-- Metric Calculator over a whole table: every row gains the three
derived columns. -/
def computeMetrics (t : Table) (days : ℕ) : Table :=
  { cols := t.cols ++ ["Total Orders", "DRR", "DOC"],
    rows := t.rows.map (metricsRow t.cols days) }

/-- Bucket Classifier `color_doc` (lines 47-65): `float(val)` is tried;
on failure the empty (unstyled) style string is returned; a NaN float
converts without raising, fails every range test and reaches the final
`else`, like any other value outside the six buckets. -/
def color_doc (v : Cell) : String :=
  match v with
  | .na => "background-color: #222222; color: white"
  | _ =>
    match toNumeric v with
    | none => ""
    | some doc =>
      if 0 ≤ doc ∧ doc < 7 then "background-color: #8B0000; color: white"
      else if 7 ≤ doc ∧ doc < 15 then "background-color: #FF8C00; color: white"
      else if 15 ≤ doc ∧ doc < 30 then "background-color: #006400; color: white"
      else if 30 ≤ doc ∧ doc < 45 then "background-color: #B8860B; color: white"
      else if 45 ≤ doc ∧ doc < 60 then "background-color: #0F52BA; color: white"
      else if 60 ≤ doc ∧ doc < 90 then "background-color: #8B4513; color: white"
      else "background-color: #222222; color: white"

/-- Export filter `filter_oos` (lines 67-73): rows whose
`afn-fulfillable-quantity`, coerced to numeric with missing as 0, is
exactly 0; an empty copy with the same columns when the column is
absent. -/
def filter_oos (t : Table) : Table :=
  if "afn-fulfillable-quantity" ∈ t.cols then
    { cols := t.cols,
      rows := t.rows.filter
        (fun r => decide ((toNumeric (rowGet t.cols r "afn-fulfillable-quantity")).getD 0 = 0)) }
  else { cols := t.cols, rows := [] }

/-- Export filter `filter_overstock` (lines 75-80): rows whose coerced
`DOC` is at least the threshold (the code's default is 90); NaN compares
false and is dropped; an empty copy with the same columns when `DOC` is
absent. -/
def filter_overstock (t : Table) (threshold : ℚ) : Table :=
  if "DOC" ∈ t.cols then
    { cols := t.cols,
      rows := t.rows.filter
        (fun r =>
          match toNumeric (rowGet t.cols r "DOC") with
          | some q => decide (threshold ≤ q)
          | none => false) }
  else { cols := t.cols, rows := [] }

/-- Core of pandas `drop_duplicates(keep="first")` on a key function:
walk the rows front to back, keeping a row exactly when its key has not
been seen yet. -/
def dedupKeyAux {κ : Type} [DecidableEq κ] (key : List Cell → κ) :
    List (List Cell) → List κ → List (List Cell)
  | [], _ => []
  | r :: rs, seen =>
    if key r ∈ seen then dedupKeyAux key rs seen
    else r :: dedupKeyAux key rs (key r :: seen)

/-- Dedup key of the Deduplicator (lines 803-807): the pair of the
`(Parent) ASIN` and `SKU` cells. -/
def pairKey (cols : List String) (r : List Cell) : Cell × Cell :=
  (rowGet cols r "(Parent) ASIN", rowGet cols r "SKU")

/-- Deduplicator (lines 800-807): when both key columns are present,
`drop_duplicates(subset=["(Parent) ASIN", "SKU"], keep="first")`;
otherwise the table is left untouched. -/
def dedupParentSku (t : Table) : Table :=
  if "(Parent) ASIN" ∈ t.cols ∧ "SKU" ∈ t.cols then
    { cols := t.cols, rows := dedupKeyAux (pairKey t.cols) t.rows [] }
  else t

/-- Case-insensitive substring test used for fuzzy column lookup. -/
def strContains (s pat : String) : Bool := decide (pat.data <:+: s.data)

/-- Rename every column named `old` to `nw` (pandas `rename(columns=...)`). -/
def renameCol (t : Table) (old nw : String) : Table :=
  { cols := t.cols.map (fun c => if c = old then nw else c), rows := t.rows }

/-- Drop the column named `name` (pandas `drop(columns=[name])`). -/
def dropCol (t : Table) (name : String) : Table :=
  { cols := t.cols.filter (fun c => decide (c ≠ name)),
    rows := t.rows.map (fun r => ((t.cols.zip r).filter (fun p => decide (p.1 ≠ name))).map (fun p => p.2)) }

/-- Apply `f` to the cells of the column named `name` in one row. -/
def mapColRow (cols : List String) (name : String) (f : Cell → Cell) (r : List Cell) : List Cell :=
  match cols.findIdx? (fun c => c = name) with
  | some i => r.set i (f (r.getD i .na))
  | none => r

/-- Apply `f` to every cell of the column named `name`
(in-place column transforms such as `astype(str)` or numeric coercion). -/
def mapCol (t : Table) (name : String) (f : Cell → Cell) : Table :=
  { cols := t.cols, rows := t.rows.map (mapColRow t.cols name f) }

/-- Append a new column whose cells are computed from each row
(pandas `df[name] = ...` with a fresh name). -/
def appendComputedCol (t : Table) (name : String) (f : List String → List Cell → Cell) : Table :=
  { cols := t.cols ++ [name], rows := t.rows.map (fun r => r ++ [f t.cols r]) }

/-- Cells of the column named `name`, row by row. -/
def colValues (t : Table) (name : String) : List Cell :=
  t.rows.map (fun r => rowGet t.cols r name)

/-- First pair whose key equals `k` (lookup in an index built from a
column with unique keys). -/
def lookupFirst (pairs : List (Cell × Cell)) (k : Cell) : Option Cell :=
  match pairs.find? (fun p => decide (p.1 = k)) with
  | some p => some p.2
  | none => none

/-- Model of `pd.merge(left, right, how="left", left_on=lkey,
right_on=rkey)`: every left row is kept; it is replicated once per
matching right row, and padded with NaN when nothing matches (NaN join
keys match nothing). -/
def leftMerge (left right : Table) (lkey rkey : String) : Table :=
  { cols := left.cols ++ right.cols,
    rows := (left.rows.map (fun lr =>
      let k := rowGet left.cols lr lkey
      let ms := if k = Cell.na then []
                else right.rows.filter (fun rr => decide (rowGet right.cols rr rkey = k))
      if ms = [] then [lr ++ right.cols.map (fun _ => Cell.na)]
      else ms.map (fun rr => lr ++ rr))).flatten }

/-- Model of `pm = pm_read.iloc[:, 2:7]` with the five fixed names
assigned and `Amazon Sku Name` cast to string (lines 660-663); assigning
five names to fewer sliced columns raises a length-mismatch error. -/
def sliceCG (pmRead : Table) : Except String Table :=
  if pmRead.cols.length < 7 then
    .error "Length mismatch: cannot assign 5 names to PM columns C:G"
  else
    .ok (mapCol
      { cols := ["Amazon Sku Name", "D", "Brand Manager", "F", "Brand"],
        rows := pmRead.rows.map (fun r => (r.drop 2).take 5) }
      "Amazon Sku Name" pyStr)

/-- The sales-to-PM enrichment merge (lines 672-678): left join of the
sales table against the projected PM columns on
`SKU = Amazon Sku Name`. -/
def salesPmMerge (sales pm : Table) : Table :=
  leftMerge sales (projectCols pm ["Amazon Sku Name", "Brand Manager", "Brand"]) "SKU" "Amazon Sku Name"

/-- Columns the parent-cost lookup requires (line 758). -/
def requiredCols : List String := ["ASIN", "Vendor SKU Codes", "CP"]

/-- Parent-cost lookup `pm_lookup` (lines 758-772): a `ValueError` when a
required column is missing, else the projected columns with `ASIN` cast
to string and `CP` coerced to numeric with 0 for failures.  No
`drop_duplicates` is applied (the dedup announced in the adjacent
comment is absent from the code). -/
def parentCostLookup (pmRead : Table) : Except String Table :=
  if requiredCols.filter (fun c => decide (c ∉ pmRead.cols)) ≠ [] then
    .error "PM file missing columns"
  else
    .ok (mapCol (mapCol (projectCols pmRead requiredCols) "ASIN" pyStr)
          "CP" (fun c => .num ((toNumeric c).getD 0)))

/-- Columns `build_inventory_report` projects out of the master table
(line 529). -/
def masterLookupCols : List String :=
  ["ASIN", "Brand", "Brand Manager", "Vendor SKU Codes", "CP"]

/-- ASIN-keyed master lookup of `build_inventory_report` (lines 528-535):
projection, `drop_duplicates(subset=["ASIN"])` keeping the first row per
key, `ASIN` cast to string, `CP` coerced with 0 for failures.  Errors
when a projected column is missing. -/
def invReportLookup (pmRead : Table) : Except String Table :=
  if masterLookupCols.filter (fun c => decide (c ∉ pmRead.cols)) ≠ [] then
    .error "KeyError: PM columns missing"
  else
    let lkp0 := projectCols pmRead masterLookupCols
    let lkp1 : Table :=
      { cols := lkp0.cols,
        rows := dedupKeyAux (fun r => rowGet lkp0.cols r "ASIN") lkp0.rows [] }
    .ok (mapCol (mapCol lkp1 "ASIN" pyStr) "CP" (fun c => .num ((toNumeric c).getD 0)))

/-- Inventory Report builder (lines 520-554): find the ASIN column of
the inventory snapshot (an IndexError when absent), cast it to string,
left-merge against the deduplicated master lookup, rename the vendor
column and derive `As per Qty` from the warehouse quantity times `CP`
(NaN `CP` from an unmatched join propagates into the product). -/
def build_inventory_report (inventory pmRead : Table) : Except String Table := do
  match inventory.cols.find? (fun c => lowerStr c = "asin") with
  | none => .error "IndexError: inventory has no asin column"
  | some asinCol =>
    let inv := mapCol inventory asinCol pyStr
    let lkp ← invReportLookup pmRead
    let merged := renameCol (leftMerge inv lkp asinCol "ASIN") "Vendor SKU Codes" "Vendor SKU"
    match merged.cols.find? (fun c => strContains (lowerStr c) "afn-warehouse") with
    | some wh =>
      let merged2 := mapCol merged wh (fun c => .num ((toNumeric c).getD 0))
      .ok (appendComputedCol merged2 "As per Qty" (fun cols r =>
        match toNumeric (rowGet cols r "CP") with
        | some cp => .num (round2 (((toNumeric (rowGet cols r wh)).getD 0) * cp))
        | none => .na))
    | none => .ok (appendComputedCol merged "As per Qty" (fun _ _ => .num 0))

/-- SKU-column detection and normalization on the sales table
(lines 612-624): the first column whose stripped lowercase name is
`sku` is renamed to exactly `SKU`; `none` models the `st.stop()` abort
when no such column exists. -/
def detectSkuCol (business : Table) : Option Table :=
  match business.cols.find? (fun c => lowerStr (trimStr c) = "sku") with
  | none => none
  | some c => some (renameCol business c "SKU")

/-- Attach one inventory quantity column to the sales table
(lines 690-716): the inventory column is located by substring match;
when present, `original[name] = original["SKU"].map(mi_map).fillna(0)`
with `mi_map = inventory.set_index(first column)[found column]` —
mapping through a series whose index has duplicate keys raises an
`InvalidIndexError`; when absent the whole column defaults to 0. -/
def attachQtyCol (orig inventory : Table) (sub name : String) : Except String Table :=
  match inventory.cols.head? with
  | none => .error "inventory has no columns"
  | some idxCol =>
    match inventory.cols.find? (fun c => strContains (lowerStr c) sub) with
    | some fc =>
      let keys := colValues inventory idxCol
      if keys.Nodup then
        .ok (appendComputedCol orig name (fun cols r =>
          match lookupFirst (keys.zip (colValues inventory fc)) (rowGet cols r "SKU") with
          | some Cell.na => Cell.num 0
          | some v => v
          | none => Cell.num 0))
      else .error "InvalidIndexError: non-unique inventory index"
    | none => .ok (appendComputedCol orig name (fun _ _ => Cell.num 0))

/-- Both inventory quantity attachments, in code order. -/
def attachInventory (orig inventory : Table) : Except String Table := do
  let t1 ← attachQtyCol orig inventory "afn-fulfillable" "afn-fulfillable-quantity"
  attachQtyCol t1 inventory "afn-reserved" "afn-reserved-quantity"

/-- Parent-cost enrichment (lines 758-798): the required-column check
and lookup, then — when the sales table has a `(Parent) ASIN` column — a
left join on `(Parent) ASIN = ASIN` with the vendor column renamed,
`Total CP = (fulfillable.fillna(0) * CP).round(2)` (NaN `CP` from an
unmatched join propagates), and the joined `ASIN` column dropped;
otherwise constant default columns. -/
def parentMergeStep (t : Table) (pmRead : Table) : Except String Table := do
  let lkp ← parentCostLookup pmRead
  if "(Parent) ASIN" ∈ t.cols then
    let t1 := mapCol t "(Parent) ASIN" pyStr
    let merged := renameCol (leftMerge t1 lkp "(Parent) ASIN" "ASIN") "Vendor SKU Codes" "Vendor SKU"
    let withTotal := appendComputedCol merged "Total CP" (fun cols r =>
      match toNumeric (rowGet cols r "CP") with
      | some cp => .num (round2 (((toNumeric (rowGet cols r "afn-fulfillable-quantity")).getD 0) * cp))
      | none => .na)
    .ok (dropCol withTotal "ASIN")
  else
    .ok (appendComputedCol
          (appendComputedCol (appendComputedCol t "Vendor SKU" (fun _ _ => .str ""))
            "CP" (fun _ _ => .num 0))
          "Total CP" (fun _ _ => .num 0))

/-- Seller-SKU mapping (lines 813-826): when both columns exist, a row's
`Seller SKU` is its own SKU if that SKU occurs in the inactive-listing
report, else the empty string. -/
def sellerSkuStep (t listing : Table) : Table :=
  if "SKU" ∈ t.cols ∧ "seller-sku" ∈ listing.cols then
    let t1 := mapCol t "SKU" pyStr
    let sset := colValues (mapCol listing "seller-sku" pyStr) "seller-sku"
    appendComputedCol t1 "Seller SKU" (fun cols r =>
      if rowGet cols r "SKU" ∈ sset then rowGet cols r "SKU" else .str "")
  else appendComputedCol t "Seller SKU" (fun _ _ => .str "")

/-- Listing-status flag (lines 831-839). -/
def listingStatusStep (t : Table) : Table :=
  if "SKU" ∈ t.cols ∧ "Seller SKU" ∈ t.cols then
    appendComputedCol t "Listing Status" (fun cols r =>
      if pyStr (rowGet cols r "SKU") = pyStr (rowGet cols r "Seller SKU") ∧
         rowGet cols r "Seller SKU" ≠ .str "" then
        .str "Listing Close"
      else .str " ")
  else appendComputedCol t "Listing Status" (fun _ _ => .str "")

/-- The enrichment chain of the processing run, in code order
(lines 660-839): PM slice, sales-to-PM merge, inventory quantities,
derived metrics, parent-cost merge, deduplication, listing status.
Column repositioning around `Title` (lines 681-686) is presentation-only
and omitted. -/
def enrichPipeline (business1 pmRead inventory listing : Table) (days : ℕ) :
    Except String Table := do
  let pm ← sliceCG pmRead
  let merged := salesPmMerge business1 pm
  let withInv ← attachInventory merged inventory
  let withMetrics := computeMetrics withInv days
  let enriched ← parentMergeStep withMetrics pmRead
  .ok (listingStatusStep (sellerSkuStep (dedupParentSku enriched) listing))

/-- The two session-state slots the run publishes into. -/
structure SessionState where
  inventoryReport : Option Table
  processedData : Option Table
deriving DecidableEq, Repr

/-- One press of the Process button (lines 597-1152): SKU detection
aborts before anything is published; `build_inventory_report` runs next
and its exceptions are caught with nothing published; on its success the
inventory report is published (line 644) before the enrichment chain
runs, so a later failure leaves the new inventory report next to the
previous processed table; `processed_data` is published (line 1058) only
after the whole chain succeeds. -/
def processRun (prior : SessionState) (business pmRead inventory listing : Table)
    (days : ℕ) : SessionState × Option String :=
  match detectSkuCol business with
  | none => (prior, some "Business Report file is invalid. Required column missing: SKU")
  | some business1 =>
    match build_inventory_report inventory pmRead with
    | .error e => (prior, some e)
    | .ok invRep =>
      let s1 : SessionState :=
        { inventoryReport := some invRep, processedData := prior.processedData }
      match enrichPipeline business1 pmRead inventory listing days with
      | .error e => (s1, some e)
      | .ok enriched =>
        ({ inventoryReport := some invRep, processedData := some enriched }, none)

/-- Big-endian decimal digit characters of `n`, driven by explicit fuel
so the kernel can evaluate it; with fuel above `n` this is the usual
decimal numeral (no leading zeros). -/
def natDigsF : ℕ → ℕ → List Char
  | 0, _ => []
  | fuel + 1, n =>
    if n < 10 then [Nat.digitChar n]
    else natDigsF fuel (n / 10) ++ [Nat.digitChar (n % 10)]

/-- Decimal rendering of a natural number, as Python's `str(i)` inside
the f-string produces it. -/
def natStr (n : ℕ) : String := String.mk (natDigsF (n + 1) n)

/-- Candidate sheet names tried by the collision loop (lines 249-254):
`base`, `base_1`, `base_2`, ... -/
def candName (base : String) (k : ℕ) : String :=
  if k = 0 then base else base ++ "_" ++ natStr k

/-- The `while sheet_name in titles` loop, with fuel for termination:
try `candName base k`, advance while the name is taken. -/
def freshAux (base : String) (existing : List String) : ℕ → ℕ → String
  | 0, k => candName base k
  | fuel + 1, k =>
    if candName base k ∈ existing then freshAux base existing fuel (k + 1)
    else candName base k

/-- Sheet-name disambiguation of the missing-table branch: the first
candidate not among the existing sheet titles (fuel one above the number
of titles always suffices). -/
def freshSheetName (base : String) (existing : List String) : String :=
  freshAux base existing (existing.length + 1) 0

/-- One worksheet: a title and a grid of cells (row 1 first). -/
structure SheetT where
  title : String
  grid : List (List Cell)
deriving DecidableEq, Repr

/-- A structured (named) spreadsheet table: display name plus the
1-based bounds of its `ref` range. -/
structure TableRef where
  displayName : String
  firstRow : ℕ
  lastRow : ℕ
  firstCol : ℕ
  lastCol : ℕ
deriving DecidableEq, Repr

/-- Width of a written grid (`ws.max_column` for a nonempty grid). -/
def maxWidth (g : List (List Cell)) : ℕ :=
  g.foldl (fun a r => max a r.length) 0

/-- Missing-table branch of `fill_template_and_get_bytes`
(lines 247-271): create a sheet under a non-colliding name, append the
header then every data row from A1 down, and wrap `A1:[max_col][max_row]`
in a structured table whose display name is the requested table name. -/
def fillTemplateNewSheet (existingTitles : List String) (df : Table)
    (tableName : String) : SheetT × TableRef :=
  let name := freshSheetName tableName existingTitles
  let grid := (df.cols.map Cell.str) :: df.rows
  ({ title := name, grid := grid },
   { displayName := tableName, firstRow := 1, lastRow := grid.length,
     firstCol := 1, lastCol := maxWidth grid })

/-- Row comparison used by `sort_values(by="DOC", ascending=asc)`:
compare the coerced DOC keys, NaN ordered last. -/
def docLe (cols : List String) (asc : Bool) (r1 r2 : List Cell) : Bool :=
  match toNumeric (rowGet cols r1 "DOC"), toNumeric (rowGet cols r2 "DOC") with
  | some a, some b => if asc then decide (a ≤ b) else decide (b ≤ a)
  | some _, none => true
  | none, some _ => false
  | none, none => true

/-- Insert a row into a sorted list of rows. -/
def insertSorted (le : List Cell → List Cell → Bool) (r : List Cell) :
    List (List Cell) → List (List Cell)
  | [] => [r]
  | x :: xs => if le r x then r :: x :: xs else x :: insertSorted le r xs

/-- Sort rows by the comparison `le` (models `sort_values`; the pandas
default sort kind leaves tie order unspecified, here ties keep input
order). -/
def sortRows (le : List Cell → List Cell → Bool) (rs : List (List Cell)) :
    List (List Cell) :=
  rs.foldr (insertSorted le) []

/-- Key tuple of a row under the groupby columns `ks`. -/
def keyTuple (cols : List String) (ks : List String) (r : List Cell) : List Cell :=
  ks.map (rowGet cols r)

/-- Sum of a column over a list of rows, missing values contributing 0
(pandas `sum()` skips NaN). -/
def sumCol (cols : List String) (rows : List (List Cell)) (name : String) : ℚ :=
  (rows.map (fun r => (toNumeric (rowGet cols r name)).getD 0)).sum

/-- Text of a cell as Python renders it in the synthesized label. -/
def cellText (c : Cell) : String :=
  match pyStr c with
  | .str s => s
  | _ => ""

/-- Model of the groupby-sum aggregation (lines 363-373): one row per
distinct key tuple (groups in first-appearance order; pandas
additionally sorts group keys, which no property here depends on) with
the summed `DOC`, `DRR`, `Total CP` columns and the synthesized
`Brand_Parent` label. -/
def aggRows (working : Table) (ks : List String) : Table :=
  let keys := (dedupKeyAux (keyTuple working.cols ks) working.rows []).map
    (keyTuple working.cols ks)
  { cols := ks ++ ["DOC", "DRR", "Total CP", "Brand_Parent"],
    rows := keys.map (fun k =>
      let grp := working.rows.filter (fun r => decide (keyTuple working.cols ks r = k))
      k ++ [Cell.num (sumCol working.cols grp "DOC"),
            Cell.num (sumCol working.cols grp "DRR"),
            Cell.num (sumCol working.cols grp "Total CP"),
            Cell.str (String.intercalate " | " (k.map cellText))]) }

/-- The aggregation `elif`/`else` chain shared by both branches of
`create_fallback_workbook` once the parent branch is not taken. -/
def aggFallthrough (working : Table) : Except String Table :=
  if "Brand" ∈ working.cols then
    if "DOC" ∈ working.cols ∧ "DRR" ∈ working.cols ∧ "Total CP" ∈ working.cols then
      .ok (aggRows working ["Brand"])
    else .error "KeyError: aggregation columns"
  else .ok { cols := ["Brand_Parent", "DOC", "DRR", "Total CP"], rows := [] }

/-- The `if parent_col and parent_col in working.columns` aggregation
branch (lines 363-376): grouping keys are checked by pandas before the
selected sum columns. -/
def aggBranch (working : Table) (parentCol : Option String) : Except String Table :=
  match parentCol with
  | some pc =>
    if pc ∈ working.cols then
      if "Brand" ∈ working.cols then
        if "DOC" ∈ working.cols ∧ "DRR" ∈ working.cols ∧ "Total CP" ∈ working.cols then
          .ok (aggRows working ["Brand", pc])
        else .error "KeyError: aggregation columns"
      else .error "KeyError: Brand"
    else aggFallthrough working
  | none => aggFallthrough working

/-- The artifact Strategy B produces: data sheet with its structured
table, pivot-equivalent aggregate sheet, optional chart-data sheet and
chart, instructions sheet. -/
structure FallbackWorkbook where
  dataSheet : SheetT
  dataTable : TableRef
  pivotSheet : SheetT
  chartData : Option SheetT
  hasChart : Bool
  howTo : Bool
deriving DecidableEq, Repr

/-- Brand allow-list filter of Strategy B (lines 359-360):
`if selected_brands:` is skipped for `None` and for the empty list; a
non-empty list indexes `working["Brand"]`, a `KeyError` when the column
is absent. -/
def brandFilterStep (df : Table) (selectedBrands : Option (List String)) :
    Except String Table :=
  match selectedBrands with
  | some bs =>
    if bs ≠ [] then
      if "Brand" ∈ df.cols then
        Except.ok (Table.mk df.cols (df.rows.filter (fun r =>
          match rowGet df.cols r "Brand" with
          | .str s => decide (s ∈ bs)
          | _ => false)))
      else Except.error "KeyError: Brand"
    else Except.ok df
  | none => Except.ok df

/-- The unconditional `sort_values(by="DOC")` (line 361): a `KeyError`
when `DOC` is absent, outside any exception guard. -/
def sortStep (t : Table) (sortDesc : Bool) : Except String Table :=
  if "DOC" ∈ t.cols then
    Except.ok (Table.mk t.cols (sortRows (docLe t.cols (!sortDesc)) t.rows))
  else Except.error "KeyError: DOC"

/-- Strategy B, `create_fallback_workbook` (lines 340-515): the brand
allow-list filter, the `sort_values(by="DOC")` and the groupby
aggregation all run before the `Workbook()` is created and outside any
`try`, so their `KeyError`s abort the whole export; every later
formatting/table/chart step is wrapped in `try/except` and cannot fail
the build. -/
def create_fallback_workbook (df : Table) (sortDesc : Bool) (sheetName : String)
    (parentCol : Option String) (selectedBrands : Option (List String)) :
    Except String FallbackWorkbook := do
  let working0 ← brandFilterStep df selectedBrands
  let working ← sortStep working0 sortDesc
  let agg ← aggBranch working parentCol
  let dataGrid := (working.cols.map Cell.str) :: working.rows
  .ok { dataSheet := { title := sheetName, grid := dataGrid },
        dataTable := { displayName := "DataTable", firstRow := 1,
                       lastRow := dataGrid.length, firstCol := 1,
                       lastCol := maxWidth dataGrid },
        pivotSheet := { title := "PivotSummary",
                        grid := (agg.cols.map Cell.str) :: agg.rows },
        chartData := if agg.rows = [] then none
          else some { title := "ChartData",
                      grid := (["Brand_Parent", "DOC", "DRR", "Total CP"].map Cell.str) ::
                        (projectCols agg ["Brand_Parent", "DOC", "DRR", "Total CP"]).rows },
        hasChart := decide (agg.rows ≠ []),
        howTo := true }

/-! Concrete tables used to instantiate the theorems below. -/

/-- Sales table of the spec scenario: one row with 1200 total order
items over a 30-day window and 400 fulfillable units. -/
def mcEx : Table :=
  { cols := ["SKU", "Total Order Items", "Total Order Items - B2B", "afn-fulfillable-quantity"],
    rows := [[Cell.str "S1", Cell.num 1200, Cell.num 0, Cell.num 400]] }

/-- The single row of `mcEx`. -/
def mcRow : List Cell := [Cell.str "S1", Cell.num 1200, Cell.num 0, Cell.num 400]

/-- Variant of `mcEx` with zero orders, hence zero demand rate. -/
def mcZeroEx : Table :=
  { cols := ["SKU", "Total Order Items", "Total Order Items - B2B", "afn-fulfillable-quantity"],
    rows := [[Cell.str "S2", Cell.num 0, Cell.num 0, Cell.num 400]] }

/-- The single row of `mcZeroEx`. -/
def mcZeroRow : List Cell := [Cell.str "S2", Cell.num 0, Cell.num 0, Cell.num 400]

/-- C1: for every row of the enriched table with a nonzero demand rate,
`DRR` is `round2` of total demand over the window length and `DOC` is
`round2` of the fulfillable quantity over `DRR` — exactly the cells the
Metric Calculator appends. -/
theorem c1_metric_formulas (t : Table) (days : ℕ) (hdays : 0 < days)
    (r : List Cell) (hr : r ∈ t.rows) (q : ℚ)
    (hq : toNumeric (rowGet t.cols r "afn-fulfillable-quantity") = some q)
    (hd : drrOf t.cols r days ≠ 0) :
    metricsRow t.cols days r ∈ (computeMetrics t days).rows ∧
    drrOf t.cols r days = round2 (totalOrders t.cols r / (days : ℚ)) ∧
    metricsRow t.cols days r =
      r ++ [Cell.num (totalOrders t.cols r),
            Cell.num (drrOf t.cols r days),
            Cell.num (round2 (q / drrOf t.cols r days))] := by
  refine ⟨?_, rfl, ?_⟩
  · simpa [computeMetrics] using List.mem_map_of_mem (metricsRow t.cols days) hr
  · simp only [metricsRow, docOf, hq, if_neg hd]

/-- Witness: the spec scenario (1200 orders over 30 days, 400
fulfillable) instantiates `c1_metric_formulas`. -/
theorem c1_witness :
    metricsRow mcEx.cols 30 mcRow ∈ (computeMetrics mcEx 30).rows ∧
    drrOf mcEx.cols mcRow 30 = round2 (totalOrders mcEx.cols mcRow / (30 : ℚ)) ∧
    metricsRow mcEx.cols 30 mcRow =
      mcRow ++ [Cell.num (totalOrders mcEx.cols mcRow),
                Cell.num (drrOf mcEx.cols mcRow 30),
                Cell.num (round2 (400 / drrOf mcEx.cols mcRow 30))] :=
  c1_metric_formulas mcEx 30 (by norm_num) mcRow (by decide) 400 rfl (by
    have ht : totalOrders mcEx.cols mcRow = 1200 + 0 := rfl
    rw [drrOf, ht]
    norm_num [round2, halfEven])

/-- C2: whenever the demand rate of a row is zero, the appended `DOC`
cell is the number 0 — not missing and not infinite — regardless of the
fulfillable quantity; and the division-by-zero rule `docOf f 0 = 0`
holds for every fulfillable value, missing included. -/
theorem c2_zero_drr_zero_doc (t : Table) (days : ℕ) (r : List Cell) (hr : r ∈ t.rows)
    (hd : drrOf t.cols r days = 0) :
    metricsRow t.cols days r ∈ (computeMetrics t days).rows ∧
    metricsRow t.cols days r =
      r ++ [Cell.num (totalOrders t.cols r), Cell.num 0, Cell.num 0] ∧
    (∀ f : Option ℚ, docOf f 0 = 0) := by
  refine ⟨?_, ?_, fun f => by simp [docOf]⟩
  · simpa [computeMetrics] using List.mem_map_of_mem (metricsRow t.cols days) hr
  · simp only [metricsRow, docOf, hd, if_pos]

/-- Witness: the zero-orders row instantiates `c2_zero_drr_zero_doc`
(400 fulfillable units, DRR 0, DOC 0). -/
theorem c2_witness :
    metricsRow mcZeroEx.cols 30 mcZeroRow ∈ (computeMetrics mcZeroEx 30).rows ∧
    metricsRow mcZeroEx.cols 30 mcZeroRow =
      mcZeroRow ++ [Cell.num (totalOrders mcZeroEx.cols mcZeroRow), Cell.num 0, Cell.num 0] ∧
    (∀ f : Option ℚ, docOf f 0 = 0) :=
  c2_zero_drr_zero_doc mcZeroEx 30 mcZeroRow (by decide) (by
    have ht : totalOrders mcZeroEx.cols mcZeroRow = 0 + 0 := rfl
    rw [drrOf, ht]
    norm_num [round2, halfEven])

/-- C3 counterexample: a negative input does not produce the
neutral/unstyled result — `color_doc` maps `-1` to the dark catch-all
style (the same style as values at or above 90), which differs from the
empty string returned for non-numeric input. -/
theorem c3_counterexample :
    color_doc (Cell.num (-1)) = "background-color: #222222; color: white" ∧
    color_doc (Cell.num (-1)) ≠ "" ∧
    color_doc (Cell.str "abc") = "" := by
  have h : color_doc (Cell.num (-1)) = "background-color: #222222; color: white" := by
    norm_num [color_doc, toNumeric]
  exact ⟨h, by rw [h]; decide, rfl⟩

/-- C3 amended: the classifier is a total function with the claimed
half-open boundaries, non-numeric input yields the unstyled empty
result, and negative numeric input falls into the dark catch-all bucket
shared with `[90, ∞)` rather than the unstyled result. -/
theorem c3_amended :
    color_doc (Cell.num (69999/10000)) = "background-color: #8B0000; color: white" ∧
    color_doc (Cell.num 7) = "background-color: #FF8C00; color: white" ∧
    color_doc (Cell.num (149999/10000)) = "background-color: #FF8C00; color: white" ∧
    color_doc (Cell.num 15) = "background-color: #006400; color: white" ∧
    color_doc (Cell.str "abc") = "" ∧
    (∀ q : ℚ, q < 0 → color_doc (Cell.num q) = "background-color: #222222; color: white") ∧
    (∀ q : ℚ, 90 ≤ q → color_doc (Cell.num q) = "background-color: #222222; color: white") := by
  refine ⟨?_, ?_, ?_, ?_, rfl, ?_, ?_⟩
  · norm_num [color_doc, toNumeric]
  · norm_num [color_doc, toNumeric]
  · norm_num [color_doc, toNumeric]
  · norm_num [color_doc, toNumeric]
  · intro q hq
    have h1 : ¬(0 ≤ q ∧ q < 7) := by rintro ⟨a, b⟩; linarith
    have h2 : ¬(7 ≤ q ∧ q < 15) := by rintro ⟨a, b⟩; linarith
    have h3 : ¬(15 ≤ q ∧ q < 30) := by rintro ⟨a, b⟩; linarith
    have h4 : ¬(30 ≤ q ∧ q < 45) := by rintro ⟨a, b⟩; linarith
    have h5 : ¬(45 ≤ q ∧ q < 60) := by rintro ⟨a, b⟩; linarith
    have h6 : ¬(60 ≤ q ∧ q < 90) := by rintro ⟨a, b⟩; linarith
    simp [color_doc, toNumeric, h1, h2, h3, h4, h5, h6]
  · intro q hq
    have h1 : ¬(0 ≤ q ∧ q < 7) := by rintro ⟨a, b⟩; linarith
    have h2 : ¬(7 ≤ q ∧ q < 15) := by rintro ⟨a, b⟩; linarith
    have h3 : ¬(15 ≤ q ∧ q < 30) := by rintro ⟨a, b⟩; linarith
    have h4 : ¬(30 ≤ q ∧ q < 45) := by rintro ⟨a, b⟩; linarith
    have h5 : ¬(45 ≤ q ∧ q < 60) := by rintro ⟨a, b⟩; linarith
    have h6 : ¬(60 ≤ q ∧ q < 90) := by rintro ⟨a, b⟩; linarith
    simp [color_doc, toNumeric, h1, h2, h3, h4, h5, h6]

/-- Witness: `c3_amended` applied at `-5` (and at `95`) produces the
dark catch-all style. -/
theorem c3_witness :
    color_doc (Cell.num (-5)) = "background-color: #222222; color: white" ∧
    color_doc (Cell.num 95) = "background-color: #222222; color: white" :=
  ⟨c3_amended.2.2.2.2.2.1 (-5) (by norm_num),
   c3_amended.2.2.2.2.2.2 95 (by norm_num)⟩

/-- Table without the fulfillable-quantity and `DOC` columns, for the
empty-result contract of the export filters. -/
def c7Ex : Table := { cols := ["X"], rows := [[Cell.num 1], [Cell.num 2]] }

/-- C7: both export filters keep the input schema; with the key column
absent they return zero rows; with it present they return exactly the
rows passing the predicate (fulfillable coerced-with-0 equal to 0, resp.
coerced `DOC` at least the threshold, NaN dropped).  Both are pure
functions of the input table, which is left unmodified. -/
theorem c7_filter_contracts (t : Table) (threshold : ℚ) :
    (filter_oos t).cols = t.cols ∧
    (filter_overstock t threshold).cols = t.cols ∧
    ("afn-fulfillable-quantity" ∉ t.cols → (filter_oos t).rows = []) ∧
    ("afn-fulfillable-quantity" ∈ t.cols → ∀ r ∈ t.rows,
      (r ∈ (filter_oos t).rows ↔
        (toNumeric (rowGet t.cols r "afn-fulfillable-quantity")).getD 0 = 0)) ∧
    ("DOC" ∉ t.cols → (filter_overstock t threshold).rows = []) ∧
    ("DOC" ∈ t.cols → ∀ r ∈ t.rows,
      (r ∈ (filter_overstock t threshold).rows ↔
        ∃ q, toNumeric (rowGet t.cols r "DOC") = some q ∧ threshold ≤ q)) := by
  refine ⟨?_, ?_, ?_, ?_, ?_, ?_⟩
  · unfold filter_oos; split <;> rfl
  · unfold filter_overstock; split <;> rfl
  · intro h; simp [filter_oos, h]
  · intro h r hr
    simp only [filter_oos, if_pos h, List.mem_filter, decide_eq_true_eq]
    exact ⟨fun ⟨_, hp⟩ => hp, fun hp => ⟨hr, hp⟩⟩
  · intro h; simp [filter_overstock, h]
  · intro h r hr
    simp only [filter_overstock, if_pos h, List.mem_filter]
    constructor
    · rintro ⟨-, hp⟩
      cases hv : toNumeric (rowGet t.cols r "DOC") with
      | none => rw [hv] at hp; simp at hp
      | some q =>
        rw [hv] at hp
        simp only [decide_eq_true_eq] at hp
        exact ⟨q, rfl, hp⟩
    · rintro ⟨q, hv, hq⟩
      refine ⟨hr, ?_⟩
      rw [hv]
      simpa using hq

/-- Witness: on a table lacking both key columns, both filters return
zero rows with the schema preserved (via `c7_filter_contracts` at
threshold 90, the code's default). -/
theorem c7_witness :
    (filter_oos c7Ex).rows = [] ∧ (filter_overstock c7Ex 90).rows = [] ∧
    (filter_oos c7Ex).cols = c7Ex.cols :=
  ⟨(c7_filter_contracts c7Ex 90).2.2.1 (by decide),
   (c7_filter_contracts c7Ex 90).2.2.2.2.1 (by decide),
   (c7_filter_contracts c7Ex 90).1⟩

/-- Sales table with a single record for SKU `S1`. -/
def c4Sales : Table := { cols := ["SKU"], rows := [[Cell.str "S1"]] }

/-- Master table whose positional columns C:G hold two rows for the same
SKU `S1` with different brands `X` and `Y`. -/
def c4Pm : Table :=
  { cols := ["A1", "B2", "C3", "D4", "E5", "F6", "G7"],
    rows := [[Cell.str "a", Cell.str "b", Cell.str "S1", Cell.str "d",
              Cell.str "BM1", Cell.str "f", Cell.str "X"],
             [Cell.str "a", Cell.str "b", Cell.str "S1", Cell.str "d",
              Cell.str "BM2", Cell.str "f", Cell.str "Y"]] }

/-- C4 evaluation at the failing input: the sales-to-PM merge
(lines 672-678) against a master holding duplicate `Amazon Sku Name`
keys replicates the single sales record into two enriched rows — the
join does not produce exactly one enriched row per original sales
record (the dedup that would guarantee it is commented out at
lines 666-670). -/
theorem c4_duplicate_master_multiplies_rows :
    (sliceCG c4Pm).map (fun pm => (salesPmMerge c4Sales pm).rows) =
      Except.ok
        [[Cell.str "S1", Cell.str "S1", Cell.str "BM1", Cell.str "X"],
         [Cell.str "S1", Cell.str "S1", Cell.str "BM2", Cell.str "Y"]] ∧
    c4Sales.rows.length = 1 := by
  exact ⟨rfl, rfl⟩

/-- Master table with a duplicate `ASIN` key `A`, first row brand `X`,
second row brand `Y`. -/
def c5Pm : Table :=
  { cols := ["ASIN", "Brand", "Brand Manager", "Vendor SKU Codes", "CP"],
    rows := [[Cell.str "A", Cell.str "X", Cell.str "M1", Cell.str "V1", Cell.num 5],
             [Cell.str "A", Cell.str "Y", Cell.str "M2", Cell.str "V2", Cell.num 6]] }

/-- C5 evaluation at the failing input: the ASIN-keyed inventory-report
lookup (lines 528-535) does keep only the first row per duplicate key
(`A` resolves to brand `X`), but the parent-keyed cost lookup
(lines 758-772) keeps both duplicate rows — despite the adjacent
comment announcing it is deduplicated by ASIN. -/
theorem c5_parent_lookup_keeps_duplicates :
    invReportLookup c5Pm =
      Except.ok
        { cols := masterLookupCols,
          rows := [[Cell.str "A", Cell.str "X", Cell.str "M1", Cell.str "V1", Cell.num 5]] } ∧
    parentCostLookup c5Pm =
      Except.ok
        { cols := requiredCols,
          rows := [[Cell.str "A", Cell.str "V1", Cell.num 5],
                   [Cell.str "A", Cell.str "V2", Cell.num 6]] } := by
  exact ⟨rfl, rfl⟩

/-- A master table missing a projected column makes the inventory-report
lookup fail. -/
theorem invReportLookup_error (pmRead : Table) (c : String)
    (hc : c ∈ masterLookupCols) (hmiss : c ∉ pmRead.cols) :
    ∃ e, invReportLookup pmRead = .error e := by
  have hne : masterLookupCols.filter (fun x => decide (x ∉ pmRead.cols)) ≠ [] := by
    intro hnil
    have hmem : c ∈ masterLookupCols.filter (fun x => decide (x ∉ pmRead.cols)) :=
      List.mem_filter.mpr ⟨hc, by simpa using hmiss⟩
    rw [hnil] at hmem
    exact absurd hmem (List.not_mem_nil c)
  unfold invReportLookup
  rw [if_pos hne]
  exact ⟨_, rfl⟩

/-- With a required master column missing, `build_inventory_report`
raises before anything can be published. -/
theorem build_inventory_report_error (inventory pmRead : Table) (c : String)
    (hc : c ∈ masterLookupCols) (hmiss : c ∉ pmRead.cols) :
    ∃ e, build_inventory_report inventory pmRead = .error e := by
  unfold build_inventory_report
  cases hfind : inventory.cols.find? (fun c => lowerStr c = "asin") with
  | none => exact ⟨_, rfl⟩
  | some asinCol =>
    obtain ⟨e, he⟩ := invReportLookup_error pmRead c hc hmiss
    refine ⟨e, ?_⟩
    simp only [bind, Except.bind, he]

/-- C6: when any column the master-table lookups require is missing,
the run aborts with a reported error and session state is left exactly
as it was — neither the inventory-report slot nor the processed-data
slot is touched, so no partial result of the failed run is published.
(The failure fires inside `build_inventory_report`, which runs before
the line 644 publish; the later line 758-761 check can no longer fail
once `build_inventory_report` has succeeded.) -/
theorem c6_missing_master_column_aborts_cleanly
    (prior : SessionState) (business pmRead inventory listing : Table) (days : ℕ)
    (c : String) (hc : c ∈ masterLookupCols) (hmiss : c ∉ pmRead.cols) :
    (processRun prior business pmRead inventory listing days).1 = prior ∧
    ((processRun prior business pmRead inventory listing days).2).isSome = true := by
  unfold processRun
  cases hsku : detectSkuCol business with
  | none => exact ⟨rfl, rfl⟩
  | some b1 =>
    obtain ⟨e, he⟩ := build_inventory_report_error inventory pmRead c hc hmiss
    rw [he]
    exact ⟨rfl, rfl⟩

/-- Sales table for the C6 witness. -/
def c6Business : Table := { cols := ["SKU"], rows := [[Cell.str "S1"]] }

/-- Master table for the C6 witness: wide enough for the positional
slice, with an ASIN column but no `CP` column. -/
def c6Pm : Table :=
  { cols := ["ASIN", "B2", "C3", "D4", "E5", "F6", "G7"],
    rows := [[Cell.str "A", Cell.str "b", Cell.str "S1", Cell.str "d",
              Cell.str "BM", Cell.str "f", Cell.str "X"]] }

/-- Inventory snapshot for the C6 witness. -/
def c6Inventory : Table := { cols := ["asin"], rows := [[Cell.str "A"]] }

/-- Inactive-listing table for the C6 witness. -/
def c6Listing : Table := { cols := ["seller-sku"], rows := [] }

/-- Previous-run session state for the C6 witness. -/
def c6Prior : SessionState :=
  { inventoryReport := none, processedData := some c6Business }

/-- Witness: a master table lacking `CP` aborts the run and leaves the
previous session state untouched. -/
theorem c6_witness :
    (processRun c6Prior c6Business c6Pm c6Inventory c6Listing 30).1 = c6Prior ∧
    ((processRun c6Prior c6Business c6Pm c6Inventory c6Listing 30).2).isSome = true :=
  c6_missing_master_column_aborts_cleanly c6Prior c6Business c6Pm c6Inventory c6Listing 30
    "CP" (by decide) (by decide)


/-- Condition under which a row occurrence at position `i` survives the
keep-first deduplication: its key is outside `seen` and differs from the
key of every earlier row. -/
def keptAt {κ : Type} [DecidableEq κ] (key : List Cell → κ) (rows : List (List Cell))
    (seen : List κ) (i : ℕ) : Option (List Cell) :=
  (rows[i]?).bind (fun r =>
    if key r ∉ seen ∧ ∀ r0 ∈ rows.take i, key r0 ≠ key r then some r else none)

/-- Keep-first deduplication characterized positionally: a row occurrence
survives exactly when its key is unseen and no earlier row of the list
carries the same key. -/
theorem dedupKeyAux_eq_firstOcc {κ : Type} [DecidableEq κ] (key : List Cell → κ)
    (rows : List (List Cell)) :
    ∀ seen : List κ,
    dedupKeyAux key rows seen =
      (List.range rows.length).filterMap (keptAt key rows seen) := by
  induction rows with
  | nil => intro seen; rfl
  | cons r rs ih =>
    intro seen
    rw [List.length_cons, List.range_succ_eq_map, List.filterMap_cons]
    by_cases h : key r ∈ seen
    · have hf0 : keptAt key (r :: rs) seen 0 = none := by
        simp [keptAt, h]
      rw [hf0, List.filterMap_map]
      show dedupKeyAux key (r :: rs) seen = _
      unfold dedupKeyAux
      rw [if_pos h, ih seen]
      apply List.filterMap_congr
      intro i hi
      simp only [keptAt, Function.comp_apply, List.getElem?_cons_succ, List.take_succ_cons]
      cases hx : rs[i]? with
      | none => rfl
      | some x =>
        simp only [Option.some_bind]
        apply if_congr ?_ rfl rfl
        constructor
        · rintro ⟨hns, hall⟩
          refine ⟨hns, ?_⟩
          rw [List.forall_mem_cons]
          exact ⟨fun heq => hns (heq ▸ h), hall⟩
        · rintro ⟨hns, hall⟩
          exact ⟨hns, fun r0 hr0 => hall r0 (List.mem_cons_of_mem r hr0)⟩
    · have hf0 : keptAt key (r :: rs) seen 0 = some r := by
        simp [keptAt, h]
      rw [hf0, List.filterMap_map]
      show dedupKeyAux key (r :: rs) seen = _
      unfold dedupKeyAux
      rw [if_neg h, ih (key r :: seen)]
      congr 1
      apply List.filterMap_congr
      intro i hi
      simp only [keptAt, Function.comp_apply, List.getElem?_cons_succ, List.take_succ_cons]
      cases hx : rs[i]? with
      | none => rfl
      | some x =>
        simp only [Option.some_bind]
        apply if_congr ?_ rfl rfl
        constructor
        · rintro ⟨hns, hall⟩
          refine ⟨fun hs => hns (List.mem_cons_of_mem _ hs), ?_⟩
          rw [List.forall_mem_cons]
          refine ⟨fun heq => hns ?_, hall⟩
          rw [heq]
          exact List.mem_cons_self _ _
        · rintro ⟨hns, hall⟩
          rw [List.forall_mem_cons] at hall
          refine ⟨?_, hall.2⟩
          intro hmem
          rcases List.mem_cons.mp hmem with heq | hs
          · exact hall.1 heq.symm
          · exact hns hs

/-- Keep-first deduplication is idempotent. -/
theorem dedupKeyAux_idem {κ : Type} [DecidableEq κ] (key : List Cell → κ)
    (rows : List (List Cell)) :
    ∀ seen : List κ,
    dedupKeyAux key (dedupKeyAux key rows seen) seen = dedupKeyAux key rows seen := by
  induction rows with
  | nil => intro seen; rfl
  | cons r rs ih =>
    intro seen
    by_cases h : key r ∈ seen
    · have h1 : dedupKeyAux key (r :: rs) seen = dedupKeyAux key rs seen := by
        conv_lhs => unfold dedupKeyAux
        rw [if_pos h]
      rw [h1]
      exact ih seen
    · have h1 : dedupKeyAux key (r :: rs) seen = r :: dedupKeyAux key rs (key r :: seen) := by
        conv_lhs => unfold dedupKeyAux
        rw [if_neg h]
      have h2 : dedupKeyAux key (r :: dedupKeyAux key rs (key r :: seen)) seen =
          r :: dedupKeyAux key (dedupKeyAux key rs (key r :: seen)) (key r :: seen) := by
        conv_lhs => unfold dedupKeyAux
        rw [if_neg h]
      rw [h1, h2, ih (key r :: seen)]

/-- C8: the Deduplicator keeps the columns, keeps exactly those row
occurrences whose (parent, SKU) key differs from every earlier row's key
(the first occurrence of each key; rows sharing a parent but differing
in SKU have different keys and are all kept), and is idempotent on every
table, key columns present or not. -/
theorem c8_dedup_contract (t : Table)
    (h : "(Parent) ASIN" ∈ t.cols ∧ "SKU" ∈ t.cols) :
    (dedupParentSku t).cols = t.cols ∧
    (dedupParentSku t).rows =
      (List.range t.rows.length).filterMap (fun i =>
        (t.rows[i]?).bind (fun r =>
          if ∀ r0 ∈ t.rows.take i, pairKey t.cols r0 ≠ pairKey t.cols r
          then some r else none)) ∧
    (∀ u : Table, dedupParentSku (dedupParentSku u) = dedupParentSku u) := by
  refine ⟨?_, ?_, ?_⟩
  · unfold dedupParentSku
    rw [if_pos h]
  · have h1 : dedupParentSku t = ⟨t.cols, dedupKeyAux (pairKey t.cols) t.rows []⟩ := by
      unfold dedupParentSku
      rw [if_pos h]
    rw [h1, dedupKeyAux_eq_firstOcc]
    apply List.filterMap_congr
    intro i hi
    simp only [keptAt]
    cases hx : t.rows[i]? with
    | none => rfl
    | some x =>
      simp only [Option.some_bind]
      apply if_congr ?_ rfl rfl
      constructor
      · rintro ⟨-, hall⟩
        exact hall
      · intro hall
        exact ⟨List.not_mem_nil _, hall⟩
  · intro u
    by_cases hu : "(Parent) ASIN" ∈ u.cols ∧ "SKU" ∈ u.cols
    · have h1 : dedupParentSku u = ⟨u.cols, dedupKeyAux (pairKey u.cols) u.rows []⟩ := by
        unfold dedupParentSku
        rw [if_pos hu]
      have h2 : dedupParentSku (⟨u.cols, dedupKeyAux (pairKey u.cols) u.rows []⟩ : Table) =
          ⟨u.cols, dedupKeyAux (pairKey u.cols) (dedupKeyAux (pairKey u.cols) u.rows []) []⟩ := by
        unfold dedupParentSku
        rw [if_pos hu]
      rw [h1, h2, dedupKeyAux_idem]
    · have h1 : dedupParentSku u = u := by
        unfold dedupParentSku
        rw [if_neg hu]
      rw [h1, h1]

/-- Enriched table with a duplicated (parent, SKU) pair and a distinct
SKU under the same parent. -/
def c8Ex : Table :=
  { cols := ["(Parent) ASIN", "SKU"],
    rows := [[Cell.str "A", Cell.str "S1"], [Cell.str "A", Cell.str "S1"],
             [Cell.str "A", Cell.str "S2"]] }

/-- Witness: on `c8Ex` the Deduplicator drops the repeated
`(A, S1)` row, keeps `(A, S2)`, and a second application changes
nothing. -/
theorem c8_witness :
    (dedupParentSku c8Ex).rows =
      [[Cell.str "A", Cell.str "S1"], [Cell.str "A", Cell.str "S2"]] ∧
    dedupParentSku (dedupParentSku c8Ex) = dedupParentSku c8Ex := by
  have h := c8_dedup_contract c8Ex ⟨by decide, by decide⟩
  exact ⟨h.2.1.trans (by decide), h.2.2 c8Ex⟩

/-- Decimal digit characters are distinct for distinct digits. -/
theorem digitChar_inj : ∀ a < 10, ∀ b < 10,
    Nat.digitChar a = Nat.digitChar b → a = b := by decide

/-- With positive fuel the digit rendering is never empty. -/
theorem natDigsF_ne_nil : ∀ fuel n : ℕ, 0 < fuel → natDigsF fuel n ≠ [] := by
  intro fuel n hf
  match fuel, hf with
  | fuel + 1, _ =>
    unfold natDigsF
    split
    · simp
    · simp

/-- The digit rendering does not depend on the fuel once the fuel bounds
the number. -/
theorem natDigsF_fuel : ∀ f1 f2 n : ℕ, 0 < f1 → 0 < f2 →
    n < 10 ^ f1 → n < 10 ^ f2 → natDigsF f1 n = natDigsF f2 n := by
  intro f1
  induction f1 with
  | zero => intro f2 n h1 _ _ _; omega
  | succ g1 ih =>
    intro f2 n _ h2 hb1 hb2
    match f2, h2 with
    | g2 + 1, _ =>
      by_cases hn : n < 10
      · unfold natDigsF
        rw [if_pos hn, if_pos hn]
      · unfold natDigsF
        rw [if_neg hn, if_neg hn]
        have hg1 : 0 < g1 := by
          by_contra hz
          have : g1 = 0 := by omega
          rw [this] at hb1
          simp at hb1
          omega
        have hg2 : 0 < g2 := by
          by_contra hz
          have : g2 = 0 := by omega
          rw [this] at hb2
          simp at hb2
          omega
        have hd1 : n / 10 < 10 ^ g1 := by
          rw [Nat.div_lt_iff_lt_mul (by norm_num)]
          calc n < 10 ^ (g1 + 1) := hb1
          _ = 10 ^ g1 * 10 := by ring
        have hd2 : n / 10 < 10 ^ g2 := by
          rw [Nat.div_lt_iff_lt_mul (by norm_num)]
          calc n < 10 ^ (g2 + 1) := hb2
          _ = 10 ^ g2 * 10 := by ring
        rw [ih g2 (n / 10) hg1 hg2 hd1 hd2]

/-- The digit rendering is injective below its fuel bound. -/
theorem natDigsF_inj : ∀ f n m : ℕ, n < 10 ^ f → m < 10 ^ f →
    natDigsF f n = natDigsF f m → n = m := by
  intro f
  induction f with
  | zero =>
    intro n m hn hm _
    simp at hn hm
    omega
  | succ g ih =>
    intro n m hn hm heq
    have hgpos : ∀ x : ℕ, ¬x < 10 → x < 10 ^ (g + 1) → 0 < g := by
      intro x hx hbx
      by_contra hz
      have : g = 0 := by omega
      rw [this] at hbx
      simp at hbx
      omega
    have hdivlt : ∀ x : ℕ, x < 10 ^ (g + 1) → x / 10 < 10 ^ g := by
      intro x hbx
      rw [Nat.div_lt_iff_lt_mul (by norm_num)]
      calc x < 10 ^ (g + 1) := hbx
      _ = 10 ^ g * 10 := by ring
    by_cases h1 : n < 10 <;> by_cases h2 : m < 10
    · unfold natDigsF at heq
      rw [if_pos h1, if_pos h2] at heq
      simp at heq
      exact digitChar_inj n h1 m h2 heq
    · unfold natDigsF at heq
      rw [if_pos h1, if_neg h2] at heq
      have hlen := congrArg List.length heq
      simp at hlen
      have hne := natDigsF_ne_nil g (m / 10) (hgpos m h2 hm)
      exact absurd hlen hne
    · unfold natDigsF at heq
      rw [if_neg h1, if_pos h2] at heq
      have hlen := congrArg List.length heq
      simp at hlen
      have hne := natDigsF_ne_nil g (n / 10) (hgpos n h1 hn)
      exact absurd hlen hne
    · unfold natDigsF at heq
      rw [if_neg h1, if_neg h2] at heq
      have hrev := congrArg List.reverse heq
      simp [List.reverse_append] at hrev
      have hmod : n % 10 = m % 10 :=
        digitChar_inj _ (Nat.mod_lt n (by norm_num)) _ (Nat.mod_lt m (by norm_num)) hrev.1
      have hdiv : n / 10 = m / 10 :=
        ih (n / 10) (m / 10) (hdivlt n hn) (hdivlt m hm) hrev.2
      omega

/-- Distinct naturals render to distinct decimal strings. -/
theorem natStr_inj : Function.Injective natStr := by
  intro n m heq
  have hdata : natDigsF (n + 1) n = natDigsF (m + 1) m := congrArg String.data heq
  have hbn : n < 10 ^ (n + 1) :=
    lt_of_lt_of_le (Nat.lt_pow_self (by norm_num) n)
      (Nat.pow_le_pow_right (by norm_num) (by omega))
  have hbm : m < 10 ^ (m + 1) :=
    lt_of_lt_of_le (Nat.lt_pow_self (by norm_num) m)
      (Nat.pow_le_pow_right (by norm_num) (by omega))
  have hF : ∀ x : ℕ, x + 1 ≤ max (n + 1) (m + 1) → 10 ^ (x + 1) ≤ 10 ^ max (n + 1) (m + 1) :=
    fun x hx => Nat.pow_le_pow_right (by norm_num) hx
  have h1 : natDigsF (n + 1) n = natDigsF (max (n + 1) (m + 1)) n :=
    natDigsF_fuel (n + 1) (max (n + 1) (m + 1)) n (by omega) (by omega) hbn
      (lt_of_lt_of_le hbn (hF n (le_max_left _ _)))
  have h2 : natDigsF (m + 1) m = natDigsF (max (n + 1) (m + 1)) m :=
    natDigsF_fuel (m + 1) (max (n + 1) (m + 1)) m (by omega) (by omega) hbm
      (lt_of_lt_of_le hbm (hF m (le_max_right _ _)))
  exact natDigsF_inj (max (n + 1) (m + 1)) n m
    (lt_of_lt_of_le hbn (hF n (le_max_left _ _)))
    (lt_of_lt_of_le hbm (hF m (le_max_right _ _)))
    (h1 ▸ h2 ▸ hdata)

/-- The decimal rendering is never the empty string. -/
theorem natStr_len_pos (n : ℕ) : 0 < (natStr n).length := by
  have hne := natDigsF_ne_nil (n + 1) n (by omega)
  unfold natStr
  rw [String.length_mk]
  cases hd : natDigsF (n + 1) n with
  | nil => exact absurd hd hne
  | cons c cs => simp

/-- The candidate sheet names `base`, `base_1`, `base_2`, ... are
pairwise distinct. -/
theorem candName_inj (base : String) : Function.Injective (candName base) := by
  intro i j heq
  unfold candName at heq
  by_cases hi : i = 0 <;> by_cases hj : j = 0
  · omega
  · rw [if_pos hi, if_neg hj] at heq
    have hlen := congrArg String.length heq
    rw [String.length_append, String.length_append] at hlen
    have hp := natStr_len_pos j
    have hu : ("_" : String).length = 1 := rfl
    omega
  · rw [if_neg hi, if_pos hj] at heq
    have hlen := congrArg String.length heq
    rw [String.length_append, String.length_append] at hlen
    have hp := natStr_len_pos i
    have hu : ("_" : String).length = 1 := rfl
    omega
  · rw [if_neg hi, if_neg hj] at heq
    have hdata := congrArg String.data heq
    rw [String.data_append, String.data_append] at hdata
    have htail := List.append_cancel_left hdata
    have hstr : natStr i = natStr j := String.ext htail
    exact natStr_inj hstr

/-- Pigeonhole for the collision loop: within `existing.length + 1`
consecutive candidates starting anywhere, at least one is not an
existing title. -/
theorem fresh_exists (base : String) (existing : List String) (k : ℕ) :
    ∃ j, j ≤ existing.length ∧ candName base (k + j) ∉ existing := by
  by_contra hall
  push_neg at hall
  have hnd : ((List.range (existing.length + 1)).map (fun j => candName base (k + j))).Nodup := by
    refine List.Nodup.map ?_ (List.nodup_range _)
    intro a b hab
    have := candName_inj base hab
    omega
  have hsub : ∀ x ∈ (List.range (existing.length + 1)).map (fun j => candName base (k + j)),
      x ∈ existing := by
    intro x hx
    obtain ⟨j, hj, rfl⟩ := List.mem_map.mp hx
    exact hall j (by have := List.mem_range.mp hj; omega)
  have hcard : existing.length + 1 ≤ existing.length := by
    calc existing.length + 1
        = ((List.range (existing.length + 1)).map (fun j => candName base (k + j))).length := by
          simp
      _ = ((List.range (existing.length + 1)).map (fun j => candName base (k + j))).toFinset.card :=
          (List.toFinset_card_of_nodup hnd).symm
      _ ≤ existing.toFinset.card := by
          apply Finset.card_le_card
          intro x hx
          exact List.mem_toFinset.mpr (hsub x (List.mem_toFinset.mp hx))
      _ ≤ existing.length := existing.toFinset_card_le
  omega

/-- Correctness of the collision loop: given enough fuel to reach a free
candidate, the loop returns a name that is not an existing title, and it
is the first such candidate (every earlier candidate is taken). -/
theorem freshAux_spec (base : String) (existing : List String) :
    ∀ fuel k : ℕ, (∃ j, j < fuel ∧ candName base (k + j) ∉ existing) →
    freshAux base existing fuel k ∉ existing ∧
    ∃ j, freshAux base existing fuel k = candName base (k + j) ∧
         ∀ i < j, candName base (k + i) ∈ existing := by
  intro fuel
  induction fuel with
  | zero =>
    rintro k ⟨j, hj, -⟩
    omega
  | succ fuel ih =>
    rintro k ⟨j, hj, hfree⟩
    by_cases hk : candName base k ∈ existing
    · have hj0 : j ≠ 0 := by
        rintro rfl
        rw [Nat.add_zero] at hfree
        exact hfree hk
      have hex : ∃ j2, j2 < fuel ∧ candName base ((k + 1) + j2) ∉ existing := by
        refine ⟨j - 1, by omega, ?_⟩
        have harg : (k + 1) + (j - 1) = k + j := by omega
        rw [harg]
        exact hfree
      obtain ⟨hnot, j2, heq, hmin⟩ := ih (k + 1) hex
      have hstep : freshAux base existing (fuel + 1) k = freshAux base existing fuel (k + 1) := by
        conv_lhs => unfold freshAux
        rw [if_pos hk]
      rw [hstep]
      refine ⟨hnot, j2 + 1, ?_, ?_⟩
      · rw [heq]
        congr 1
        omega
      · intro i hi
        match i with
        | 0 => rw [Nat.add_zero]; exact hk
        | i2 + 1 =>
          have hm := hmin i2 (by omega)
          have harg : (k + 1) + i2 = k + (i2 + 1) := by omega
          rw [harg] at hm
          exact hm
    · have hstep : freshAux base existing (fuel + 1) k = candName base k := by
        conv_lhs => unfold freshAux
        rw [if_neg hk]
      rw [hstep]
      exact ⟨hk, 0, by rw [Nat.add_zero], fun i hi => absurd hi (Nat.not_lt_zero i)⟩

/-- The disambiguated sheet name is fresh and carries the first numeric
suffix that avoids every existing title. -/
theorem freshSheetName_spec (base : String) (existing : List String) :
    freshSheetName base existing ∉ existing ∧
    ∃ j, freshSheetName base existing = candName base j ∧
         ∀ i < j, candName base i ∈ existing := by
  obtain ⟨j, hj, hfree⟩ := fresh_exists base existing 0
  have h := freshAux_spec base existing (existing.length + 1) 0 ⟨j, by omega, hfree⟩
  refine ⟨h.1, ?_⟩
  obtain ⟨j2, he, hm⟩ := h.2
  refine ⟨j2, by simpa using he, fun i hi => by simpa using hm i hi⟩

/-- Folding `max` of row widths over rows of constant width is that
width. -/
theorem foldl_max_const (c : ℕ) : ∀ g : List (List Cell), (∀ r ∈ g, r.length = c) →
    g.foldl (fun x r => max x r.length) c = c := by
  intro g
  induction g with
  | nil => intro _; rfl
  | cons r rs ih =>
    intro h
    have hr : r.length = c := h r (List.mem_cons_self _ _)
    show List.foldl _ (max c r.length) rs = c
    rw [hr, max_self]
    exact ih (fun x hx => h x (List.mem_cons_of_mem _ hx))

/-- Width of a grid whose header and rows all have the same width. -/
theorem maxWidth_wellformed (hdr : List Cell) (g : List (List Cell)) (c : ℕ)
    (hh : hdr.length = c) (hg : ∀ r ∈ g, r.length = c) :
    maxWidth (hdr :: g) = c := by
  unfold maxWidth
  show List.foldl _ (max 0 hdr.length) g = c
  rw [hh, Nat.max_eq_right (Nat.zero_le c)]
  exact foldl_max_const c g hg

/-- C9: the missing-table branch creates a sheet whose title is the
first of `DataTable`, `DataTable_1`, `DataTable_2`, ... not already a
sheet title, writes the header and the full row set starting at A1, and
wraps `A1:[max_col][max_row]` in a structured table whose display name
is exactly `DataTable` with one data row per input row. -/
theorem c9_template_new_sheet (existingTitles : List String) (df : Table)
    (hcols : df.cols ≠ []) (hwf : ∀ r ∈ df.rows, r.length = df.cols.length) :
    (fillTemplateNewSheet existingTitles df "DataTable").1.title ∉ existingTitles ∧
    (∃ j, (fillTemplateNewSheet existingTitles df "DataTable").1.title =
            candName "DataTable" j ∧
          ∀ i < j, candName "DataTable" i ∈ existingTitles) ∧
    (fillTemplateNewSheet existingTitles df "DataTable").1.grid =
      (df.cols.map Cell.str) :: df.rows ∧
    (fillTemplateNewSheet existingTitles df "DataTable").2.displayName = "DataTable" ∧
    (fillTemplateNewSheet existingTitles df "DataTable").2.firstRow = 1 ∧
    (fillTemplateNewSheet existingTitles df "DataTable").2.firstCol = 1 ∧
    (fillTemplateNewSheet existingTitles df "DataTable").2.lastRow = df.rows.length + 1 ∧
    (fillTemplateNewSheet existingTitles df "DataTable").2.lastCol = df.cols.length := by
  obtain ⟨hfree, hmin⟩ := freshSheetName_spec "DataTable" existingTitles
  refine ⟨hfree, hmin, rfl, rfl, rfl, rfl, ?_, ?_⟩
  · show ((df.cols.map Cell.str) :: df.rows).length = df.rows.length + 1
    simp
  · show maxWidth ((df.cols.map Cell.str) :: df.rows) = df.cols.length
    exact maxWidth_wellformed _ _ _ (by simp) hwf

/-- Filtered/sorted export table for the C9 witness. -/
def c9Df : Table := { cols := ["SKU", "DOC"], rows := [[Cell.str "S1", Cell.num 95]] }

/-- Witness: with `DataTable` already used as a sheet title, the new
sheet is named `DataTable_1`, the structured table is still displayed as
`DataTable`, and its range covers the header plus the one data row. -/
theorem c9_witness :
    (fillTemplateNewSheet ["DataTable"] c9Df "DataTable").1.title ∉ ["DataTable"] ∧
    (fillTemplateNewSheet ["DataTable"] c9Df "DataTable").1.title = "DataTable_1" ∧
    (fillTemplateNewSheet ["DataTable"] c9Df "DataTable").2.displayName = "DataTable" ∧
    (fillTemplateNewSheet ["DataTable"] c9Df "DataTable").2.lastRow = c9Df.rows.length + 1 := by
  have h := c9_template_new_sheet ["DataTable"] c9Df (by decide) (by decide)
  exact ⟨h.1, by decide, h.2.2.2.1, h.2.2.2.2.2.2.1⟩

/-- Whether an `Except` computation succeeded (the export produced a
workbook rather than raising). -/
def exceptIsOk {α : Type} (e : Except String α) : Bool :=
  match e with
  | .ok _ => true
  | .error _ => false

/-- Bind on a successful step runs the continuation. -/
theorem ok_bind {α β : Type} (a : α) (f : α → Except String β) :
    (Except.ok a >>= f) = f a := rfl

/-- Bind on a failed step propagates the failure. -/
theorem error_bind {α β : Type} (e : String) (f : α → Except String β) :
    ((Except.error e : Except String α) >>= f) = Except.error e := rfl

/-- The brand allow-list filter never changes the column set. -/
theorem brandFilterStep_cols {df : Table} {sel : Option (List String)} {t : Table}
    (h : brandFilterStep df sel = .ok t) : t.cols = df.cols := by
  cases sel with
  | none =>
    simp only [brandFilterStep, Except.ok.injEq] at h
    subst h
    rfl
  | some bs =>
    simp only [brandFilterStep] at h
    by_cases hbs : bs ≠ []
    · rw [if_pos hbs] at h
      by_cases hb : "Brand" ∈ df.cols
      · rw [if_pos hb, Except.ok.injEq] at h
        subst h
        rfl
      · rw [if_neg hb] at h
        simp at h
    · rw [if_neg hbs, Except.ok.injEq] at h
      subst h
      rfl

/-- The unconditional DOC sort fails exactly when `DOC` is absent. -/
theorem sortStep_error {t : Table} (sd : Bool) (h : "DOC" ∉ t.cols) :
    sortStep t sd = .error "KeyError: DOC" := by
  unfold sortStep
  rw [if_neg h]

/-- With a brand (or parent) grouping in effect, a missing sum column
makes the aggregation raise. -/
theorem aggBranch_error (t : Table) (pc : Option String)
    (hb : "Brand" ∈ t.cols)
    (hmiss : ¬("DOC" ∈ t.cols ∧ "DRR" ∈ t.cols ∧ "Total CP" ∈ t.cols)) :
    ∃ e, aggBranch t pc = .error e := by
  cases pc with
  | none =>
    simp only [aggBranch, aggFallthrough]
    rw [if_pos hb, if_neg hmiss]
    exact ⟨_, rfl⟩
  | some c =>
    by_cases hc : c ∈ t.cols
    · simp only [aggBranch]
      rw [if_pos hc, if_pos hb, if_neg hmiss]
      exact ⟨_, rfl⟩
    · simp only [aggBranch, aggFallthrough]
      rw [if_neg hc, if_pos hb, if_neg hmiss]
      exact ⟨_, rfl⟩

/-- Input on which the claim predicts an exception but the code
delivers a workbook: a table having `DOC` but lacking `DRR`,
`Total CP` and any brand/parent column. -/
def c10Ex : Table := { cols := ["DOC"], rows := [[Cell.num 5]] }

/-- C10 counterexample: on a table lacking `DRR` and `Total CP` (but
with `DOC` and no brand/parent grouping) `create_fallback_workbook`
succeeds — the aggregation `else` branch substitutes an empty aggregate
instead of raising, so the claimed unconditional exception is wrong. -/
theorem c10_counterexample :
    exceptIsOk (create_fallback_workbook c10Ex false "Export" none none) = true ∧
    "DRR" ∉ c10Ex.cols ∧ "Total CP" ∉ c10Ex.cols := by
  exact ⟨rfl, by decide, by decide⟩

/-- C10 amended: the export raises (producing no workbook) exactly in
these situations — `DOC` absent; a non-empty brand allow-list with
`Brand` absent; `Brand` present (with or without a parent grouping
column) while any of `DOC`, `DRR`, `Total CP` is missing.  A table with
`DOC` but no `Brand` and no matching parent column skips the
aggregation entirely and yields a workbook even without `DRR` or
`Total CP`. -/
theorem c10_amended (df : Table) (sortDesc : Bool) (nm : String) (pc : Option String) :
    (∀ sel, "DOC" ∉ df.cols →
      exceptIsOk (create_fallback_workbook df sortDesc nm pc sel) = false) ∧
    (∀ bs : List String, bs ≠ [] → "Brand" ∉ df.cols →
      exceptIsOk (create_fallback_workbook df sortDesc nm pc (some bs)) = false) ∧
    (∀ sel, "Brand" ∈ df.cols →
      ¬("DOC" ∈ df.cols ∧ "DRR" ∈ df.cols ∧ "Total CP" ∈ df.cols) →
      exceptIsOk (create_fallback_workbook df sortDesc nm pc sel) = false) ∧
    ("Brand" ∉ df.cols → (∀ c, pc = some c → c ∉ df.cols) → "DOC" ∈ df.cols →
      exceptIsOk (create_fallback_workbook df sortDesc nm pc none) = true) := by
  refine ⟨?_, ?_, ?_, ?_⟩
  · intro sel hdoc
    cases hbf : brandFilterStep df sel with
    | error e =>
      unfold create_fallback_workbook
      simp only [hbf, error_bind]
      rfl
    | ok w0 =>
      have hc0 := brandFilterStep_cols hbf
      have hs : sortStep w0 sortDesc = .error "KeyError: DOC" :=
        sortStep_error _ (by rw [hc0]; exact hdoc)
      unfold create_fallback_workbook
      simp only [hbf, ok_bind, hs, error_bind]
      rfl
  · intro bs hbs hbrand
    have hbf : brandFilterStep df (some bs) = .error "KeyError: Brand" := by
      simp only [brandFilterStep]
      rw [if_pos hbs, if_neg hbrand]
    unfold create_fallback_workbook
    simp only [hbf, error_bind]
    rfl
  · intro sel hb hmiss
    cases hbf : brandFilterStep df sel with
    | error e =>
      unfold create_fallback_workbook
      simp only [hbf, error_bind]
      rfl
    | ok w0 =>
      have hc0 := brandFilterStep_cols hbf
      by_cases hdoc : "DOC" ∈ df.cols
      · have hs : sortStep w0 sortDesc =
            .ok (Table.mk w0.cols (sortRows (docLe w0.cols (!sortDesc)) w0.rows)) := by
          unfold sortStep
          rw [if_pos (show "DOC" ∈ w0.cols by rw [hc0]; exact hdoc)]
        obtain ⟨e, hagg⟩ := aggBranch_error
          (Table.mk w0.cols (sortRows (docLe w0.cols (!sortDesc)) w0.rows)) pc
          (show "Brand" ∈ w0.cols by rw [hc0]; exact hb)
          (by show ¬("DOC" ∈ w0.cols ∧ "DRR" ∈ w0.cols ∧ "Total CP" ∈ w0.cols)
              rw [hc0]; exact hmiss)
        unfold create_fallback_workbook
        simp only [hbf, ok_bind, hs, hagg, error_bind]
        rfl
      · have hs : sortStep w0 sortDesc = .error "KeyError: DOC" :=
          sortStep_error _ (by rw [hc0]; exact hdoc)
        unfold create_fallback_workbook
        simp only [hbf, ok_bind, hs, error_bind]
        rfl
  · intro hbrand hpc hdoc
    have hbf : brandFilterStep df none = .ok df := rfl
    have hs : sortStep df sortDesc =
        .ok (Table.mk df.cols (sortRows (docLe df.cols (!sortDesc)) df.rows)) := by
      unfold sortStep
      rw [if_pos hdoc]
    have hagg : aggBranch (Table.mk df.cols (sortRows (docLe df.cols (!sortDesc)) df.rows)) pc =
        .ok { cols := ["Brand_Parent", "DOC", "DRR", "Total CP"], rows := [] } := by
      cases pc with
      | none =>
        simp only [aggBranch, aggFallthrough]
        rw [if_neg (show ¬"Brand" ∈ df.cols from hbrand)]
      | some c =>
        have hcn : c ∉ df.cols := hpc c rfl
        simp only [aggBranch, aggFallthrough]
        rw [if_neg (show ¬c ∈ df.cols from hcn),
            if_neg (show ¬"Brand" ∈ df.cols from hbrand)]
    unfold create_fallback_workbook
    simp only [hbf, ok_bind, hs, hagg]
    rfl

/-- Table with neither `DOC` nor the sum columns, only a brand column. -/
def c10NoDocEx : Table := { cols := ["Brand"], rows := [] }

/-- Table with a brand column and `DOC` but no `DRR`. -/
def c10BrandEx : Table := { cols := ["Brand", "DOC"], rows := [] }

/-- Witness: `c10_amended` at concrete inputs — missing `DOC` fails the
export, a non-empty allow-list with `Brand` missing fails it, and a
brand-grouped table missing `DRR` fails it. -/
theorem c10_witness :
    exceptIsOk (create_fallback_workbook c10NoDocEx false "Export" none none) = false ∧
    exceptIsOk (create_fallback_workbook c10Ex false "Export" none (some ["B"])) = false ∧
    exceptIsOk (create_fallback_workbook c10BrandEx false "Export" none none) = false :=
  ⟨(c10_amended c10NoDocEx false "Export" none).1 none (by decide),
   (c10_amended c10Ex false "Export" none).2.1 ["B"] (by decide) (by decide),
   (c10_amended c10BrandEx false "Export" none).2.2.1 none (by decide) (by decide)⟩
